import Mathlib

/-!
Verification of the zipch repository (src/zipch/zipcodes.py) against its
natural-language specification.

The Python module is embedded shallowly:

* `decimal.Decimal` values are modelled as exact rationals (`Rat`);
* Python exceptions are the values of the inductive type `PyErr`
  (`KeyError`, `LookupError`, `IndexError`, `ValueError`,
  `decimal.InvalidOperation`, `StopIteration`, `FileNotFoundError`);
  fallible code returns `Except PyErr _`;
* a Python `dict` (insertion ordered, as in CPython) is modelled as an
  association list `PyDict` with CPython's insert semantics (`dictInsert`):
  an existing key keeps its position and gets the new value, a new key is
  appended;
* a ZIP archive is a list of `(entry name, entry content)` pairs in stored
  order; the content type is a parameter so that `extract_csv` can be
  studied both on raw bytes and on already-decoded CSV rows;
* the filesystem visible to a `ZipcodesDatabase` instance is reduced to the
  content of `self.file_path` (`Option` = the file exists or not), and the
  instance state (`DbState`) also carries `self.zipcode_mapping`;
* every stateful operation additionally returns a `Trace` counting the
  network fetches, file opens and CSV parses it performed, so that the
  spec's "no further I/O" statements become statements about traces.
-/

namespace Zipch

/-- Python exception values, at the granularity the module distinguishes
them.  None of these exception values carries positional payload such as a
row index: the module raises them with constant or non-positional
messages. -/
inductive PyErr where
  | keyError
  | lookupError
  | indexError
  | valueError
  | invalidOperation
  | stopIteration
  | fileNotFound
  deriving DecidableEq, Repr

instance exceptDecEq {ε α : Type} [DecidableEq ε] [DecidableEq α] :
    DecidableEq (Except ε α) := fun x y =>
  match x, y with
  | Except.error a, Except.error b =>
      if h : a = b then isTrue (by rw [h])
      else isFalse (by intro hc; injection hc with h2; exact h h2)
  | Except.error _, Except.ok _ => isFalse (by intro hc; exact Except.noConfusion hc)
  | Except.ok _, Except.error _ => isFalse (by intro hc; exact Except.noConfusion hc)
  | Except.ok a, Except.ok b =>
      if h : a = b then isTrue (by rw [h])
      else isFalse (by intro hc; injection hc with h2; exact h h2)

/-- `Lv95Coordinates` from zipcodes.py: a pair of `decimal.Decimal`,
modelled as exact rationals. -/
structure Lv95Coordinates where
  E : Rat
  N : Rat
  deriving DecidableEq, Repr

/-- `Wgs84Coordinates` from zipcodes.py. -/
structure Wgs84Coordinates where
  longitude : Rat
  latitude : Rat
  deriving DecidableEq, Repr

/-- `Location` from zipcodes.py. -/
structure Location where
  official_name : String
  canton : String
  municipality : String
  coordinates : Lv95Coordinates
  deriving DecidableEq, Repr

/-- `lv95_to_wgs84` from zipcodes.py, translated term by term.  The decimal
literals are exact in `Rat`. -/
def lv95_to_wgs84 (lv95_coordinates : Lv95Coordinates) : Wgs84Coordinates :=
  let north := lv95_coordinates.N
  let east := lv95_coordinates.E
  let y := (east - 2600000) / 1000000
  let x := (north - 1200000) / 1000000
  let longitude :=
    (2.6779094 + 4.728982 * y + 0.791484 * y * x + 0.1306 * y * x ^ 2
      - 0.0436 * y ^ 3) * 100 / 36
  let latitude :=
    (16.9023892 + 3.238272 * x - 0.270978 * y ^ 2 - 0.002528 * x ^ 2
      - 0.0447 * y ^ 2 * x - 0.0140 * x ^ 3) * 100 / 36
  { longitude := longitude, latitude := latitude }

/-- A CPython `dict` with `int` keys and `Location` values, as an ordered
association list.  Keys are unique whenever the dict was produced by
`dictInsert` from the empty dict. -/
abbrev PyDict := List (Int × Location)

/-- CPython `d[k] = v`: if the key is present, it keeps its position and the
value is replaced; otherwise the pair is appended at the end. -/
def dictInsert (m : PyDict) (k : Int) (v : Location) : PyDict :=
  if m.any (fun p => p.1 == k) then
    m.map (fun p => if p.1 == k then (k, v) else p)
  else
    m ++ [(k, v)]

/-- CPython `d.get(k)`: value of the first (and, for dicts, only) entry with
the given key. -/
def dictGet (m : PyDict) (k : Int) : Option Location :=
  (m.find? (fun p => p.1 == k)).map Prod.snd

/-- Digit string to number, e.g. for `int("1003")`. -/
def digitsToNat (cs : List Char) : Nat :=
  cs.foldl (fun a ch => 10 * a + (ch.toNat - 48)) 0

/-- Surrounding-whitespace stripping, computed on the character list. -/
def pyStrip (s : String) : List Char :=
  ((s.data.dropWhile Char.isWhitespace).reverse.dropWhile Char.isWhitespace).reverse

/-- Python `int(s)` on a string: optional surrounding whitespace, optional
sign, then a non-empty run of digits; anything else raises `ValueError`. -/
def parseIntPy (s : String) : Except PyErr Int :=
  match pyStrip s with
  | [] => Except.error PyErr.valueError
  | '-' :: rest =>
      if rest ≠ [] ∧ rest.all Char.isDigit then
        Except.ok (-(digitsToNat rest : Int))
      else Except.error PyErr.valueError
  | '+' :: rest =>
      if rest ≠ [] ∧ rest.all Char.isDigit then
        Except.ok ((digitsToNat rest : Int))
      else Except.error PyErr.valueError
  | cs =>
      if cs.all Char.isDigit then Except.ok ((digitsToNat cs : Int))
      else Except.error PyErr.valueError

/-- Unsigned part of a decimal literal: digits, with an optional point and
fractional digits; at least one digit overall. -/
def parseDecimalCore (cs : List Char) : Option Rat :=
  let ip := cs.takeWhile Char.isDigit
  let rest := cs.drop ip.length
  match rest with
  | [] => if ip = [] then none else some ((digitsToNat ip : Rat))
  | '.' :: fp =>
      if (ip = [] ∧ fp = []) ∨ ¬ fp.all Char.isDigit = true then none
      else some ((digitsToNat ip : Rat) + (digitsToNat fp : Rat) / (10 : Rat) ^ fp.length)
  | _ => none

/-- Python `decimal.Decimal(s)` on the plain numeric strings the dataset
contains: optional whitespace and sign, digits with an optional fractional
part; anything else raises `decimal.InvalidOperation`. -/
def parseDecimal (s : String) : Except PyErr Rat :=
  match pyStrip s with
  | [] => Except.error PyErr.invalidOperation
  | '-' :: rest =>
      match parseDecimalCore rest with
      | some v => Except.ok (-v)
      | none => Except.error PyErr.invalidOperation
  | '+' :: rest =>
      match parseDecimalCore rest with
      | some v => Except.ok v
      | none => Except.error PyErr.invalidOperation
  | cs =>
      match parseDecimalCore cs with
      | some v => Except.ok v
      | none => Except.error PyErr.invalidOperation

/-- Python `s.endswith(suffix)`, computed on the character lists of the two
strings. -/
def pyEndsWith (s suffix : String) : Bool :=
  suffix.data.isSuffixOf s.data

/-- Python `line[i]` on a list of CSV fields: `IndexError` when out of
range. -/
def getCol (line : List String) (i : Nat) : Except PyErr String :=
  match line.get? i with
  | some s => Except.ok s
  | none => Except.error PyErr.indexError

/-- The body of the `for line in csv_reader` loop of `get_locations`,
for one row: build the `Location` (fields are evaluated left to right, so
the column accesses happen in the order 0, 5, 3, 6, 7) and then evaluate
the subscript key `int(line[1])`.  Returns the `(key, value)` pair that the
loop inserts into `zipcode_mapping`. -/
def parseRow (line : List String) : Except PyErr (Int × Location) :=
  match getCol line 0 with
  | Except.error e => Except.error e
  | Except.ok official_name =>
    match getCol line 5 with
    | Except.error e => Except.error e
    | Except.ok canton =>
      match getCol line 3 with
      | Except.error e => Except.error e
      | Except.ok municipality =>
        match getCol line 6 with
        | Except.error e => Except.error e
        | Except.ok eStr =>
          match parseDecimal eStr with
          | Except.error e => Except.error e
          | Except.ok e =>
            match getCol line 7 with
            | Except.error e2 => Except.error e2
            | Except.ok nStr =>
              match parseDecimal nStr with
              | Except.error e2 => Except.error e2
              | Except.ok n =>
                match getCol line 1 with
                | Except.error e2 => Except.error e2
                | Except.ok zStr =>
                  match parseIntPy zStr with
                  | Except.error e2 => Except.error e2
                  | Except.ok z =>
                      Except.ok (z, { official_name := official_name,
                                      canton := canton,
                                      municipality := municipality,
                                      coordinates := { E := e, N := n } })

/-- One iteration of the parse loop: run `parseRow` and insert the result
into the accumulated mapping. -/
def parseStep (mapping : PyDict) (line : List String) : Except PyErr PyDict :=
  match parseRow line with
  | Except.error e => Except.error e
  | Except.ok p => Except.ok (dictInsert mapping p.1 p.2)

/-- The parsing part of `get_locations`: skip the header row
(`next(csv_reader)` raises `StopIteration` on an empty file), then fold the
loop body over the data rows.  A row failure aborts the whole parse. -/
def parse (rows : List (List String)) : Except PyErr PyDict :=
  match rows with
  | [] => Except.error PyErr.stopIteration
  | _ :: data => data.foldlM parseStep []

/-- `extract_csv` from zipcodes.py.  The archive open as
`zipfile.ZipFile(zip_path)` is the list of its entries, `(name, content)`
pairs in stored order; the destination file is `Option` content (absent or
present with some content).  The scan over `zf.namelist()` takes the first
member name that ends in `".csv"`; with no matching member, `LookupError`
is raised and the destination is not touched.  Otherwise
`zf.open(member_to_unzip)` resolves the *string* name through the
`NameToInfo` dict, which is filled in entry order so that a later entry
overwrites an earlier one bearing the same name: opening by name yields
the **last** entry with that name, modelled as the first match in the
reversed entry list.  `open(destination, "wb")` then replaces whatever the
destination held with that entry's content. -/
def extract_csv {α : Type} (zf : List (String × α)) (destination : Option α) :
    Except PyErr Unit × Option α :=
  match zf.find? (fun member => pyEndsWith member.1 ".csv") with
  | none => (Except.error PyErr.lookupError, destination)
  | some found =>
      match zf.reverse.find? (fun member => member.1 == found.1) with
      | some member => (Except.ok (), some member.2)
      | none => (Except.error PyErr.keyError, destination)

/-- The archive served at `DOWNLOAD_URL`, with its CSV entries already
decoded to rows of fields. -/
abbrev Archive := List (String × List (List String))

/-- The mutable state of one `ZipcodesDatabase` instance together with the
only part of the filesystem it touches: `file` is the content of
`self.file_path` (decoded to CSV rows; `none` when the file does not
exist), `cache` is `self.zipcode_mapping` (initially the empty dict). -/
structure DbState where
  file : Option (List (List String))
  cache : PyDict
  deriving DecidableEq, Repr

/-- I/O performed by one call: network fetches (`urlretrieve`), opens of
`self.file_path` for reading, and CSV parses. -/
structure Trace where
  fetches : Nat
  fileOpens : Nat
  parses : Nat
  deriving DecidableEq, Repr

/-- `ZipcodesDatabase.download` from zipcodes.py.  When `overwrite` is
true, or the cached file does not exist, the archive is fetched from the
fixed URL into a temporary file (counted as one fetch) and `extract_csv`
writes the table to `self.file_path`; the temporary file is then removed.
Otherwise nothing happens. -/
def download (remote : Archive) (overwrite : Bool) (st : DbState) :
    Except PyErr Unit × DbState × Trace :=
  if overwrite || st.file.isNone then
    let result := extract_csv remote st.file
    (result.1, { st with file := result.2 }, ⟨1, 0, 0⟩)
  else
    (Except.ok (), st, ⟨0, 0, 0⟩)

/-- `ZipcodesDatabase.download` called with no argument: the `overwrite`
parameter of the source (`def download(self, overwrite=True)`) defaults to
`True`. -/
def download_default (remote : Archive) (st : DbState) :
    Except PyErr Unit × DbState × Trace :=
  download remote true st

/-- `ZipcodesDatabase.get_locations` from zipcodes.py.  The guard is
CPython truthiness of `self.zipcode_mapping`: the cached dict is returned
immediately exactly when it is non-empty.  Otherwise the file is ensured
with `download(overwrite=False)`, opened (a missing file raises
`FileNotFoundError`) and parsed; on success the mapping is cached. -/
def get_locations (remote : Archive) (st : DbState) :
    Except PyErr PyDict × DbState × Trace :=
  if st.cache.isEmpty then
    match download remote false st with
    | (Except.error e, st1, tr) => (Except.error e, st1, tr)
    | (Except.ok _, st1, tr) =>
        match st1.file with
        | none =>
            (Except.error PyErr.fileNotFound, st1,
             ⟨tr.fetches, tr.fileOpens + 1, tr.parses⟩)
        | some rows =>
            match parse rows with
            | Except.error e =>
                (Except.error e, st1,
                 ⟨tr.fetches, tr.fileOpens + 1, tr.parses + 1⟩)
            | Except.ok m =>
                (Except.ok m, { st1 with cache := m },
                 ⟨tr.fetches, tr.fileOpens + 1, tr.parses + 1⟩)
  else
    (Except.ok st.cache, st, ⟨0, 0, 0⟩)

/-- `ZipcodesDatabase.get_location` from zipcodes.py:
`self.get_locations()[zipcode]`; a missing key raises `KeyError`. -/
def get_location (remote : Archive) (zipcode : Int) (st : DbState) :
    Except PyErr Location × DbState × Trace :=
  match get_locations remote st with
  | (Except.error e, st1, tr) => (Except.error e, st1, tr)
  | (Except.ok m, st1, tr) =>
      match dictGet m zipcode with
      | some loc => (Except.ok loc, st1, tr)
      | none => (Except.error PyErr.keyError, st1, tr)

/-- The list comprehension in `get_zipcodes_for_canton`, as a function of
the mapping: keys of the entries whose Location has the given canton, in
dict iteration order. -/
def zipcodesForCanton (m : PyDict) (canton : String) : List Int :=
  (m.filter (fun p => p.2.canton == canton)).map Prod.fst

/-- The list comprehension in `get_zipcodes_for_municipality`. -/
def zipcodesForMunicipality (m : PyDict) (municipality : String) : List Int :=
  (m.filter (fun p => p.2.municipality == municipality)).map Prod.fst

/-- `sorted(list(set(l)))` on a list of strings: distinct values in
ascending lexicographic order. -/
def sortedUnique (l : List String) : List String :=
  l.dedup.insertionSort (fun a b => a ≤ b)

/-- The body of `get_cantons`, as a function of the mapping:
`sorted(list(set([location.canton for location in ...values()])))`. -/
def cantons (m : PyDict) : List String :=
  sortedUnique (m.map (fun p => p.2.canton))

/-- The body of `get_municipalities`, as a function of the mapping. -/
def municipalities (m : PyDict) : List String :=
  sortedUnique (m.map (fun p => p.2.municipality))

/-- `ZipcodesDatabase.get_zipcodes_for_canton` from zipcodes.py. -/
def get_zipcodes_for_canton (remote : Archive) (canton : String) (st : DbState) :
    Except PyErr (List Int) × DbState × Trace :=
  match get_locations remote st with
  | (Except.error e, st1, tr) => (Except.error e, st1, tr)
  | (Except.ok m, st1, tr) => (Except.ok (zipcodesForCanton m canton), st1, tr)

/-- `ZipcodesDatabase.get_zipcodes_for_municipality` from zipcodes.py. -/
def get_zipcodes_for_municipality (remote : Archive) (municipality : String)
    (st : DbState) : Except PyErr (List Int) × DbState × Trace :=
  match get_locations remote st with
  | (Except.error e, st1, tr) => (Except.error e, st1, tr)
  | (Except.ok m, st1, tr) =>
      (Except.ok (zipcodesForMunicipality m municipality), st1, tr)

/-- `ZipcodesDatabase.get_cantons` from zipcodes.py. -/
def get_cantons (remote : Archive) (st : DbState) :
    Except PyErr (List String) × DbState × Trace :=
  match get_locations remote st with
  | (Except.error e, st1, tr) => (Except.error e, st1, tr)
  | (Except.ok m, st1, tr) => (Except.ok (cantons m), st1, tr)

/-- `ZipcodesDatabase.get_municipalities` from zipcodes.py. -/
def get_municipalities (remote : Archive) (st : DbState) :
    Except PyErr (List String) × DbState × Trace :=
  match get_locations remote st with
  | (Except.error e, st1, tr) => (Except.error e, st1, tr)
  | (Except.ok m, st1, tr) => (Except.ok (municipalities m), st1, tr)

/-- Does a data row make the parse loop fail for one of the two reasons the
specification names: fewer columns than the loop reads (8), or a
postal-code field `line[1]` that `int` rejects? -/
def rowMalformed (row : List String) : Bool :=
  decide (row.length < 8) ||
    (match row.get? 1 with
     | some s =>
         match parseIntPy s with
         | Except.ok _ => false
         | Except.error _ => true
     | none => true)

/-- The association list built by repeated `dictInsert` from the empty
dict, i.e. the dict the parse loop produces from the row results `ps`. -/
def buildDict (ps : List (Int × Location)) : PyDict :=
  ps.foldl (fun mapping p => dictInsert mapping p.1 p.2) []

/-- Fixture: the Lausanne location of the spec's example row. -/
def locLausanne : Location :=
  ⟨"Lausanne", "VD", "Lausanne", ⟨1, 2⟩⟩

/-- Fixture: a second location with a different canton. -/
def locGeneve : Location :=
  ⟨"Geneve", "GE", "Geneve", ⟨3, 4⟩⟩

/-- Fixture: a second locality that shares postal code 1003 with
`locLausanne`. -/
def locFlon : Location :=
  ⟨"Flon", "VD", "Lausanne", ⟨3, 4⟩⟩

/-- Fixture: a database state whose index has already been built and is
non-empty. -/
def cachedSt : DbState :=
  ⟨none, [(1003, locLausanne), (1201, locGeneve)]⟩

end Zipch

namespace Zipch

/-! Helper lemmas.  None of these is a claim theorem. -/

theorem except_bind_error {α β : Type} {e : PyErr} {f : α → Except PyErr β} :
    (Except.error e >>= f) = Except.error e := rfl

theorem except_bind_ok {α β : Type} {a : α} {f : α → Except PyErr β} :
    (Except.ok a >>= f) = f a := rfl

/-- When the suffix scan finds an entry and the name resolution (first
match in the reversed entry list, i.e. the last entry bearing the selected
name) yields `q`, `extract_csv` succeeds and writes `q`'s content over the
destination. -/
theorem extract_csv_found {α : Type} (zf : List (String × α))
    (destination : Option α) (n : String) (c : α) (q : String × α)
    (h : zf.find? (fun member => pyEndsWith member.1 ".csv") = some (n, c))
    (hq : zf.reverse.find? (fun member => member.1 == n) = some q) :
    extract_csv zf destination = (Except.ok (), some q.2) := by
  simp only [extract_csv, h, hq]

/-- The first-matching-entry hypothesis, phrased positionally, determines
the result of the suffix scan. -/
theorem find_csv_of_take {α : Type} (zf : List (String × α)) (i : Nat)
    (n : String) (c : α) (hi : zf.get? i = some (n, c))
    (hcsv : pyEndsWith n ".csv" = true)
    (hfirst : (zf.take i).all (fun member => ! pyEndsWith member.1 ".csv") = true) :
    zf.find? (fun member => pyEndsWith member.1 ".csv") = some (n, c) := by
  induction zf generalizing i with
  | nil => simp at hi
  | cons hd tl ih =>
      cases i with
      | zero =>
          obtain rfl : hd = (n, c) := by simpa using hi
          simp [List.find?, hcsv]
      | succ j =>
          rw [List.take_succ_cons, List.all_cons] at hfirst
          simp only [Bool.and_eq_true] at hfirst
          have hp' : pyEndsWith hd.1 ".csv" = false := by simpa using hfirst.1
          simp only [List.find?, hp']
          exact ih j (by simpa using hi) hfirst.2

theorem getCol_ok {line : List String} {i : Nat} {s : String}
    (h : getCol line i = Except.ok s) : line.get? i = some s := by
  unfold getCol at h
  cases hg : line.get? i <;> rw [hg] at h
  · exact Except.noConfusion h
  · injection h with h2
    rw [h2]

/-- A row the loop body accepts has at least 8 columns and an integral
postal-code field: each accepted row passed the column accesses up to
index 7 and the `int` conversion of column 1. -/
theorem parseRow_ok_facts {line : List String} {p : Int × Location}
    (h : parseRow line = Except.ok p) :
    (∃ s, getCol line 7 = Except.ok s) ∧
    ∃ s z, getCol line 1 = Except.ok s ∧ parseIntPy s = Except.ok z := by
  unfold parseRow at h
  repeat' split at h
  any_goals exact Except.noConfusion h
  constructor
  · exact ⟨_, by assumption⟩
  · exact ⟨_, _, by assumption, by assumption⟩

/-- Contrapositive of the two failure conditions: an accepted row is not
malformed. -/
theorem parseRow_ok_not_malformed {line : List String} {p : Int × Location}
    (h : parseRow line = Except.ok p) : rowMalformed line = false := by
  obtain ⟨⟨s7, h7⟩, s1, z, h1, hz⟩ := parseRow_ok_facts h
  have h7' := getCol_ok h7
  have h1' := getCol_ok h1
  have hlen : ¬ line.length < 8 := by
    intro hlt
    have hn : line.get? 7 = none := List.get?_eq_none.mpr (by omega)
    rw [hn] at h7'
    exact Option.noConfusion h7'
  have hd8 : decide (line.length < 8) = false := decide_eq_false hlen
  simp only [rowMalformed, h1', hz, hd8, Bool.false_or]

/-- If the fold of the loop body over the data rows succeeds, every data
row was accepted by the loop body. -/
theorem foldlM_ok_mem {data : List (List String)} {m0 m : PyDict}
    (h : data.foldlM parseStep m0 = Except.ok m) {row : List String}
    (hmem : row ∈ data) : ∃ p, parseRow row = Except.ok p := by
  induction data generalizing m0 with
  | nil => simp at hmem
  | cons hd tl ih =>
      have hcons : (hd :: tl).foldlM parseStep m0 =
          (parseStep m0 hd >>= fun m1 => tl.foldlM parseStep m1) := rfl
      rw [hcons] at h
      cases hs : parseStep m0 hd with
      | error e =>
          rw [hs, except_bind_error] at h
          exact Except.noConfusion h
      | ok m1 =>
          rw [hs, except_bind_ok] at h
          rcases List.mem_cons.mp hmem with rfl | hmem'
          · cases hr : parseRow row with
            | error e =>
                exfalso
                unfold parseStep at hs
                rw [hr] at hs
                simp at hs
            | ok p => exact ⟨p, rfl⟩
          · exact ih h hmem'

/-- A malformed data row anywhere in the file makes the whole parse fail:
no partial mapping is returned. -/
theorem parse_error_of_malformed (hdr : List String) {row : List String}
    {data : List (List String)} (hmem : row ∈ data)
    (hbad : rowMalformed row = true) :
    ∃ e, parse (hdr :: data) = Except.error e := by
  cases hp : parse (hdr :: data) with
  | error e => exact ⟨e, rfl⟩
  | ok m =>
      exfalso
      unfold parse at hp
      obtain ⟨p, hr⟩ := foldlM_ok_mem hp hmem
      rw [parseRow_ok_not_malformed hr] at hbad
      exact Bool.noConfusion hbad

end Zipch

open Zipch in
/-- C4: an archive with no entry named `*.csv` makes `extract_csv` fail
with the not-found error (`LookupError`) and leaves the destination exactly
as it was — absent stays absent, existing content stays untouched. -/
theorem C4_extract_no_csv (zf : List (String × List Nat))
    (destination : Option (List Nat))
    (h : ∀ member ∈ zf, pyEndsWith member.1 ".csv" = false) :
    extract_csv zf destination = (Except.error PyErr.lookupError, destination) := by
  have hf : zf.find? (fun member => pyEndsWith member.1 ".csv") = none :=
    List.find?_eq_none.mpr (by intro x hx; simp [h x hx])
  simp only [extract_csv, hf]

open Zipch in
/-- C4 witness: a one-entry archive without `.csv` entries, extracted over
an existing destination. -/
theorem C4_extract_no_csv_witness :
    extract_csv [("readme.txt", [1, 2])] (some [9]) =
      (Except.error PyErr.lookupError, some [9]) :=
  C4_extract_no_csv [("readme.txt", [1, 2])] (some [9]) (by decide)

open Zipch in
/-- C7 counterexample: on an archive whose two entries are both named
`"data.csv"`, the first `.csv`-suffixed entry sits at position 0 with bytes
`[1]`, yet extraction writes `[2]` — the bytes of the *last* entry bearing
that name, because `zf.open(name)` resolves the string name through
`NameToInfo`, where a later duplicate overwrites an earlier one.  So the
destination does not receive the first matching entry's bytes. -/
theorem C7_duplicate_name_counterexample :
    ([("data.csv", [1]), ("data.csv", [2])] :
        List (String × List Nat)).get? 0 = some ("data.csv", [1]) ∧
    pyEndsWith "data.csv" ".csv" = true ∧
    extract_csv [("data.csv", [1]), ("data.csv", [2])] (some [9]) =
      (Except.ok (), some [2]) ∧
    ([2] : List Nat) ≠ [1] := by
  decide

open Zipch in
/-- C7 (amended): if position `i` of the archive holds the first entry
whose name ends in `.csv`, `extract_csv` succeeds and the destination
afterwards holds, overwriting whatever was there, the decompressed bytes of
the *last* archive entry bearing that entry's name — the selected entry's
own bytes whenever no later entry repeats its name. -/
theorem C7_extract_first_csv_name (zf : List (String × List Nat))
    (destination : Option (List Nat)) (i : Nat) (n : String) (c : List Nat)
    (q : String × List Nat)
    (hi : zf.get? i = some (n, c)) (hcsv : pyEndsWith n ".csv" = true)
    (hfirst : (zf.take i).all (fun member => ! pyEndsWith member.1 ".csv") = true)
    (hlast : zf.reverse.find? (fun member => member.1 == n) = some q) :
    extract_csv zf destination = (Except.ok (), some q.2) :=
  extract_csv_found zf destination n c q
    (find_csv_of_take zf i n c hi hcsv hfirst) hlast

open Zipch in
/-- C7 witness: the spec's example archive `["readme.txt", "data.csv"]`
(no duplicate names); the `data.csv` bytes are copied verbatim over an
existing destination. -/
theorem C7_extract_first_csv_name_witness :
    extract_csv [("readme.txt", [0]), ("data.csv", [1, 2])] (some [9]) =
      (Except.ok (), some [1, 2]) :=
  C7_extract_first_csv_name [("readme.txt", [0]), ("data.csv", [1, 2])]
    (some [9]) 1 "data.csv" [1, 2] ("data.csv", [1, 2])
    (by decide) (by decide) (by decide) (by decide)

open Zipch in
/-- C6: with `overwrite=False` and an existing destination file, `download`
is a no-op — no fetch, no state change; with `overwrite=True` it always
performs the fetch-and-extract (exactly one fetch), whatever the
filesystem state. -/
theorem C6_download_overwrite_flag (remote : Archive) (st : DbState)
    (content : List (List String)) (h : st.file = some content) :
    download remote false st = (Except.ok (), st, ⟨0, 0, 0⟩) ∧
    (download remote true st).2.2.fetches = 1 := by
  constructor
  · simp [download, h]
  · simp [download]

open Zipch in
/-- C6 witness: a state whose cache file exists. -/
theorem C6_download_overwrite_flag_witness :
    download [] false ⟨some [["h"]], []⟩ = (Except.ok (), ⟨some [["h"]], []⟩, ⟨0, 0, 0⟩) ∧
    (download [] true ⟨some [["h"]], []⟩).2.2.fetches = 1 :=
  C6_download_overwrite_flag [] ⟨some [["h"]], []⟩ [["h"]] rfl

open Zipch in
/-- C10: `download` called with no argument uses the source default
`overwrite=True`: even when the destination file exists, it performs the
network fetch (fetch count 1) and replaces the destination with the table
`extract_csv` resolves from the fetched archive (the last entry bearing
the first `.csv`-suffixed name). -/
theorem C10_download_default_overwrites (remote : Archive) (st : DbState)
    (content : List (List String)) (n : String) (rows : List (List String))
    (q : String × List (List String))
    (hf : st.file = some content)
    (hfind : remote.find? (fun member => pyEndsWith member.1 ".csv") = some (n, rows))
    (hlast : remote.reverse.find? (fun member => member.1 == n) = some q) :
    download_default remote st =
      (Except.ok (), { st with file := some q.2 }, ⟨1, 0, 0⟩) := by
  have h := extract_csv_found remote st.file n rows q hfind hlast
  simp [download_default, download, h]

open Zipch in
/-- C10 witness: destination exists, archive serves one CSV entry; the
fetch happens and the file is replaced. -/
theorem C10_download_default_overwrites_witness :
    download_default [("data.csv", [["new"]])] ⟨some [["old"]], []⟩ =
      (Except.ok (), ⟨some [["new"]], []⟩, ⟨1, 0, 0⟩) :=
  C10_download_default_overwrites [("data.csv", [["new"]])] ⟨some [["old"]], []⟩
    [["old"]] "data.csv" [["new"]] ("data.csv", [["new"]]) rfl (by decide)
    (by decide)

open Zipch in
/-- C1: whatever Location Index a call to `get_locations` obtains (built or
cached), `get_location` on the same state is the exact-key lookup in it: a
present code returns the mapped Location, an absent code fails with the
not-found error (`KeyError`). -/
theorem C1_get_location_lookup (remote : Archive) (st : DbState) (m : PyDict)
    (st1 : DbState) (tr : Trace) (zipcode : Int)
    (h : get_locations remote st = (Except.ok m, st1, tr)) :
    get_location remote zipcode st =
      (match dictGet m zipcode with
       | some loc => Except.ok loc
       | none => Except.error PyErr.keyError, st1, tr) := by
  unfold get_location
  rw [h]
  cases hd : dictGet m zipcode <;> simp [hd]

open Zipch in
/-- C1 witness: on a state with a built two-entry index, code 9999 is
absent and fails with `KeyError`, while code 1003 returns its Location. -/
theorem C1_get_location_lookup_witness :
    get_location [] 9999 cachedSt = (Except.error PyErr.keyError, cachedSt, ⟨0, 0, 0⟩) ∧
    get_location [] 1003 cachedSt = (Except.ok locLausanne, cachedSt, ⟨0, 0, 0⟩) := by
  have h1 := C1_get_location_lookup [] cachedSt cachedSt.cache cachedSt ⟨0, 0, 0⟩ 9999 (by decide)
  have h2 := C1_get_location_lookup [] cachedSt cachedSt.cache cachedSt ⟨0, 0, 0⟩ 1003 (by decide)
  exact ⟨by rw [h1]; decide, by rw [h2]; decide⟩

open Zipch in
/-- C2 counterexample: on a database whose file holds only a header row,
the index build succeeds and the built index is the empty mapping, but the
resulting state is unchanged, so the subsequent query call does not return
the cache immediately: it opens and parses the file again
(`fileOpens = 1`, `parses = 1`), refuting "performs no further download,
file open, or parse" for the empty built index. -/
theorem C2_empty_cache_counterexample :
    get_locations [] ⟨some [["h"]], []⟩ =
      (Except.ok [], ⟨some [["h"]], []⟩, ⟨0, 1, 1⟩) ∧
    (get_locations [] ((get_locations [] ⟨some [["h"]], []⟩).2.1)).2.2 ≠ ⟨0, 0, 0⟩ := by
  decide

open Zipch in
/-- C2 (amended): once the built index is non-empty, every query-surface
method returns immediately from the cache, leaves the state unchanged and
performs no fetch, no file open and no parse. -/
theorem C2_cached_no_io (remote : Archive) (st : DbState) (zipcode : Int)
    (canton municipality : String) (hne : st.cache ≠ []) :
    get_locations remote st = (Except.ok st.cache, st, ⟨0, 0, 0⟩) ∧
    (get_location remote zipcode st).2 = (st, (⟨0, 0, 0⟩ : Trace)) ∧
    get_zipcodes_for_canton remote canton st =
      (Except.ok (zipcodesForCanton st.cache canton), st, ⟨0, 0, 0⟩) ∧
    get_zipcodes_for_municipality remote municipality st =
      (Except.ok (zipcodesForMunicipality st.cache municipality), st, ⟨0, 0, 0⟩) ∧
    get_cantons remote st = (Except.ok (cantons st.cache), st, ⟨0, 0, 0⟩) ∧
    get_municipalities remote st = (Except.ok (municipalities st.cache), st, ⟨0, 0, 0⟩) := by
  have hloc : get_locations remote st = (Except.ok st.cache, st, ⟨0, 0, 0⟩) := by
    unfold get_locations
    rw [if_neg]
    simp [List.isEmpty_iff, hne]
  refine ⟨hloc, ?_, ?_, ?_, ?_, ?_⟩
  · unfold get_location
    rw [hloc]
    cases hd : dictGet st.cache zipcode <;> simp [hd]
  · unfold get_zipcodes_for_canton
    rw [hloc]
  · unfold get_zipcodes_for_municipality
    rw [hloc]
  · unfold get_cantons
    rw [hloc]
  · unfold get_municipalities
    rw [hloc]

open Zipch in
/-- C2 witness: the non-empty cached state, all six query methods. -/
theorem C2_cached_no_io_witness :
    get_locations [] cachedSt = (Except.ok cachedSt.cache, cachedSt, ⟨0, 0, 0⟩) ∧
    (get_location [] 1003 cachedSt).2 = (cachedSt, (⟨0, 0, 0⟩ : Trace)) ∧
    get_zipcodes_for_canton [] "VD" cachedSt =
      (Except.ok (zipcodesForCanton cachedSt.cache "VD"), cachedSt, ⟨0, 0, 0⟩) ∧
    get_zipcodes_for_municipality [] "Lausanne" cachedSt =
      (Except.ok (zipcodesForMunicipality cachedSt.cache "Lausanne"), cachedSt, ⟨0, 0, 0⟩) ∧
    get_cantons [] cachedSt = (Except.ok (cantons cachedSt.cache), cachedSt, ⟨0, 0, 0⟩) ∧
    get_municipalities [] cachedSt =
      (Except.ok (municipalities cachedSt.cache), cachedSt, ⟨0, 0, 0⟩) :=
  C2_cached_no_io [] cachedSt 1003 "VD" "Lausanne" (by decide)

open Zipch in
/-- C3 counterexample: the failure raised for a malformed data row does not
identify the offending row index.  A three-column row as the first data row
and the same row as the second data row (after a well-formed one) fail with
the *identical* error value — a bare `IndexError` — so the parse outcome
determines no row index. -/
theorem C3_no_row_index_counterexample :
    parse [["h"], ["a", "b", "c"]] = Except.error PyErr.indexError ∧
    parse [["h"], ["Lausanne", "1003", "0", "Lausanne", "5586", "VD", "1", "2"],
           ["a", "b", "c"]] = Except.error PyErr.indexError ∧
    parse [["h"], ["a", "b", "c"]] =
      parse [["h"], ["Lausanne", "1003", "0", "Lausanne", "5586", "VD", "1", "2"],
             ["a", "b", "c"]] := by
  decide

open Zipch in
/-- C3 (amended): a data row with fewer columns than required or a
non-numeric postal-code field makes the whole build fail with an error
(a bare `IndexError`/`ValueError`-class exception, carrying no row index);
the parse is aborted and the state — in particular the cached index — is
left unchanged, so no partial index is published. -/
theorem C3_malformed_row_aborts (remote : Archive) (st : DbState)
    (hdr row : List String) (data : List (List String))
    (hfile : st.file = some (hdr :: data)) (hcache : st.cache = [])
    (hmem : row ∈ data) (hbad : rowMalformed row = true) :
    ∃ e, get_locations remote st = (Except.error e, st, ⟨0, 1, 1⟩) := by
  obtain ⟨e, hp⟩ := parse_error_of_malformed hdr hmem hbad
  refine ⟨e, ?_⟩
  have hdl : download remote false st = (Except.ok (), st, ⟨0, 0, 0⟩) := by
    simp [download, hfile]
  unfold get_locations
  rw [if_pos (by simp [hcache])]
  rw [hdl]
  simp only [hfile, hp]

open Zipch in
/-- C3 witness: a file whose only data row has three columns; the build
fails, the state keeps its empty cache and unchanged file. -/
theorem C3_malformed_row_aborts_witness :
    ∃ e, get_locations [] ⟨some [["h"], ["a", "b", "c"]], []⟩ =
      (Except.error e, ⟨some [["h"], ["a", "b", "c"]], []⟩, ⟨0, 1, 1⟩) :=
  C3_malformed_row_aborts [] ⟨some [["h"], ["a", "b", "c"]], []⟩ ["h"]
    ["a", "b", "c"] [["a", "b", "c"]] rfl rfl (by decide) (by decide)

namespace Zipch

/-! Dictionary lemmas for the duplicate-key and partition claims. -/

theorem find?_map_replace (m : PyDict) (k : Int) (v : Location)
    (h : m.any (fun p => p.1 == k) = true) :
    (m.map (fun p => if p.1 == k then (k, v) else p)).find?
        (fun p => p.1 == k) = some (k, v) := by
  induction m with
  | nil => simp at h
  | cons hd tl ih =>
      by_cases hp : (hd.1 == k) = true
      · simp [List.find?, hp]
      · have hp' : (hd.1 == k) = false := by simpa using hp
        have h2 : tl.any (fun p => p.1 == k) = true := by
          rw [List.any_cons, hp'] at h
          simpa using h
        simp only [List.map_cons, hp', Bool.false_eq_true, if_false, List.find?]
        exact ih h2

theorem find?_map_keep (m : PyDict) (k : Int) (v : Location) (k' : Int)
    (hne : (k' == k) = false) :
    (m.map (fun p => if p.1 == k then (k, v) else p)).find?
        (fun p => p.1 == k') = m.find? (fun p => p.1 == k') := by
  have hk : k' ≠ k := by simpa using hne
  have hkk : (k == k') = false := by simpa using (Ne.symm hk)
  induction m with
  | nil => rfl
  | cons hd tl ih =>
      by_cases hp : (hd.1 == k) = true
      · have h1 : hd.1 = k := by simpa using hp
        have hd1 : (hd.1 == k') = false := by rw [h1]; exact hkk
        simp only [List.map_cons, hp, if_true, List.find?, hkk, hd1]
        exact ih
      · have hp' : (hd.1 == k) = false := by simpa using hp
        cases hq : (hd.1 == k') with
        | true =>
            simp only [List.map_cons, hp', Bool.false_eq_true, if_false,
              List.find?, hq]
        | false =>
            simp only [List.map_cons, hp', Bool.false_eq_true, if_false,
              List.find?, hq]
            exact ih

theorem dictGet_dictInsert_self (m : PyDict) (k : Int) (v : Location) :
    dictGet (dictInsert m k v) k = some v := by
  unfold dictGet dictInsert
  by_cases h : m.any (fun p => p.1 == k) = true
  · rw [if_pos h, find?_map_replace m k v h]
    rfl
  · rw [if_neg h]
    have hnone : m.find? (fun p => p.1 == k) = none := by
      rw [List.find?_eq_none]
      intro x hx hpx
      exact h (List.any_eq_true.mpr ⟨x, hx, hpx⟩)
    rw [List.find?_append, hnone]
    simp [List.find?]

theorem dictGet_dictInsert_other (m : PyDict) (k : Int) (v : Location)
    (k' : Int) (hne : (k' == k) = false) :
    dictGet (dictInsert m k v) k' = dictGet m k' := by
  unfold dictGet dictInsert
  by_cases h : m.any (fun p => p.1 == k) = true
  · rw [if_pos h, find?_map_keep m k v k' hne]
  · rw [if_neg h, List.find?_append]
    have hk : k' ≠ k := by simpa using hne
    have hkk : (k == k') = false := by simpa using (Ne.symm hk)
    simp [List.find?, hkk]

/-- Looking a key up in the dict built by the insert loop returns the value
of the *last* pair carrying that key, i.e. the first hit in the reversed
insertion sequence. -/
theorem dictGet_foldl (ps : List (Int × Location)) :
    ∀ (m0 : PyDict) (c : Int),
      dictGet (ps.foldl (fun mapping p => dictInsert mapping p.1 p.2) m0) c =
        match ps.reverse.find? (fun p => p.1 == c) with
        | some q => some q.2
        | none => dictGet m0 c := by
  induction ps with
  | nil => intro m0 c; simp
  | cons p rest ih =>
      intro m0 c
      rw [List.foldl_cons, ih, List.reverse_cons, List.find?_append]
      cases hf : rest.reverse.find? (fun q => q.1 == c) with
      | some q => simp [hf]
      | none =>
          by_cases hc : (p.1 == c) = true
          · have he : p.1 = c := by simpa using hc
            subst he
            simp [List.find?, dictGet_dictInsert_self]
          · have hc' : (p.1 == c) = false := by simpa using hc
            have hcc : (c == p.1) = false := by
              have : p.1 ≠ c := by simpa using hc'
              simpa using (Ne.symm this)
            simp [List.find?, hc', dictGet_dictInsert_other m0 p.1 p.2 c hcc]

/-- The fold of the loop body equals inserting the `mapM` row results in
order. -/
theorem foldlM_eq_of_mapM {data : List (List String)} :
    ∀ {ps : List (Int × Location)} {m0 : PyDict},
      data.mapM parseRow = Except.ok ps →
      data.foldlM parseStep m0 =
        Except.ok (ps.foldl (fun mapping p => dictInsert mapping p.1 p.2) m0) := by
  induction data with
  | nil =>
      intro ps m0 h
      rw [List.mapM_nil] at h
      have hps : ps = [] := by
        injection h with h2
        exact h2.symm
      subst hps
      rfl
  | cons hd tl ih =>
      intro ps m0 h
      rw [List.mapM_cons] at h
      cases hr : parseRow hd with
      | error e =>
          rw [hr, except_bind_error] at h
          exact Except.noConfusion h
      | ok p =>
          rw [hr, except_bind_ok] at h
          cases ht : tl.mapM parseRow with
          | error e =>
              rw [ht, except_bind_error] at h
              exact Except.noConfusion h
          | ok xs =>
              rw [ht, except_bind_ok] at h
              have hps : ps = p :: xs := by
                have h2 : Except.ok (p :: xs) = Except.ok ps := h
                injection h2 with h3
                exact h3.symm
              subst hps
              have hcons : (hd :: tl).foldlM parseStep m0 =
                  (parseStep m0 hd >>= fun m1 => tl.foldlM parseStep m1) := rfl
              have hstep : parseStep m0 hd = Except.ok (dictInsert m0 p.1 p.2) := by
                unfold parseStep
                rw [hr]
              rw [hcons, hstep, except_bind_ok, List.foldl_cons]
              exact ih ht

/-- A file whose data rows all parse produces exactly the dict built by
inserting the row results in file order. -/
theorem parse_eq_buildDict {hdr : List String} {data : List (List String)}
    {ps : List (Int × Location)} (h : data.mapM parseRow = Except.ok ps) :
    parse (hdr :: data) = Except.ok (buildDict ps) := by
  unfold parse buildDict
  exact foldlM_eq_of_mapM h

theorem keys_dictInsert (m : PyDict) (k : Int) (v : Location) :
    (dictInsert m k v).map Prod.fst =
      if m.any (fun p => p.1 == k) then m.map Prod.fst
      else m.map Prod.fst ++ [k] := by
  unfold dictInsert
  by_cases h : m.any (fun p => p.1 == k) = true
  · rw [if_pos h, if_pos h, List.map_map]
    apply List.map_congr_left
    intro p _
    by_cases hq : (p.1 == k) = true
    · have hpk : p.1 = k := by simpa using hq
      simp [Function.comp, hq, hpk]
    · have hq' : (p.1 == k) = false := by simpa using hq
      simp [Function.comp, hq']
  · rw [if_neg h, if_neg h, List.map_append]
    rfl

theorem keys_nodup_dictInsert {m : PyDict} {k : Int} {v : Location}
    (h : (m.map Prod.fst).Nodup) : ((dictInsert m k v).map Prod.fst).Nodup := by
  rw [keys_dictInsert]
  by_cases ha : m.any (fun p => p.1 == k) = true
  · rw [if_pos ha]
    exact h
  · rw [if_neg ha]
    have hk : k ∉ m.map Prod.fst := by
      intro hmem
      obtain ⟨p, hp, hpk⟩ := List.mem_map.mp hmem
      exact ha (List.any_eq_true.mpr ⟨p, hp, by simp [hpk]⟩)
    rw [(List.perm_append_singleton k (m.map Prod.fst)).nodup_iff]
    exact List.nodup_cons.mpr ⟨hk, h⟩

theorem mem_keys_dictInsert {m : PyDict} {k k' : Int} {v : Location} :
    k' ∈ (dictInsert m k v).map Prod.fst ↔ k' = k ∨ k' ∈ m.map Prod.fst := by
  rw [keys_dictInsert]
  by_cases ha : m.any (fun p => p.1 == k) = true
  · rw [if_pos ha]
    constructor
    · exact Or.inr
    · rintro (rfl | hm)
      · obtain ⟨p, hp, hpk⟩ := List.any_eq_true.mp ha
        exact List.mem_map.mpr ⟨p, hp, by simpa using hpk⟩
      · exact hm
  · rw [if_neg ha]
    simp [or_comm]

theorem keys_nodup_foldl (ps : List (Int × Location)) :
    ∀ (m0 : PyDict), (m0.map Prod.fst).Nodup →
      ((ps.foldl (fun mapping p => dictInsert mapping p.1 p.2) m0).map Prod.fst).Nodup := by
  induction ps with
  | nil => intro m0 h; exact h
  | cons p rest ih =>
      intro m0 h
      rw [List.foldl_cons]
      exact ih _ (keys_nodup_dictInsert h)

/-- Keys are unique in every dict the parse loop builds. -/
theorem buildDict_keys_nodup (ps : List (Int × Location)) :
    ((buildDict ps).map Prod.fst).Nodup :=
  keys_nodup_foldl ps [] (by simp)

theorem mem_keys_foldl (ps : List (Int × Location)) :
    ∀ (m0 : PyDict) (c : Int),
      c ∈ (ps.foldl (fun mapping p => dictInsert mapping p.1 p.2) m0).map Prod.fst ↔
        ps.any (fun p => p.1 == c) = true ∨ c ∈ m0.map Prod.fst := by
  induction ps with
  | nil => intro m0 c; simp
  | cons p rest ih =>
      intro m0 c
      rw [List.foldl_cons, ih, List.any_cons, mem_keys_dictInsert]
      constructor
      · rintro (h | rfl | h)
        · exact Or.inl (Bool.or_eq_true_iff.mpr (Or.inr h))
        · exact Or.inl (Bool.or_eq_true_iff.mpr (Or.inl (by simp)))
        · exact Or.inr h
      · rintro (h | h)
        · rcases Bool.or_eq_true_iff.mp h with h1 | h2
          · have : p.1 = c := by simpa using h1
            exact Or.inr (Or.inl this.symm)
          · exact Or.inl h2
        · exact Or.inr (Or.inr h)

theorem countP_eq_one_of_nodup_keys :
    ∀ {m : PyDict}, (m.map Prod.fst).Nodup → ∀ {c : Int}, c ∈ m.map Prod.fst →
      m.countP (fun p => p.1 == c) = 1 := by
  intro m
  induction m with
  | nil =>
      intro _ c h
      simp at h
  | cons p rest ih =>
      intro hnd c hmem
      rw [List.map_cons, List.nodup_cons] at hnd
      rw [List.countP_cons]
      by_cases hc : (p.1 == c) = true
      · have hpc : p.1 = c := by simpa using hc
        have hzero : rest.countP (fun q => q.1 == c) = 0 := by
          rw [List.countP_eq_zero]
          intro q hq hqc
          exact hnd.1 (by
            rw [hpc]
            exact List.mem_map.mpr ⟨q, hq, by simpa using hqc⟩)
        simp [hzero, hc]
      · have hc' : (p.1 == c) = false := by simpa using hc
        have hcm : c ∈ rest.map Prod.fst := by
          rw [List.map_cons] at hmem
          rcases List.mem_cons.mp hmem with heq | hm
          · exact absurd heq.symm (by simpa using hc')
          · exact hm
        rw [ih hnd.2 hcm]
        simp [hc']

theorem find?_eq_head?_filter {α : Type} (p : α → Bool) (l : List α) :
    l.find? p = (l.filter p).head? := by
  induction l with
  | nil => rfl
  | cons hd tl ih =>
      cases hp : p hd with
      | false =>
          simp only [List.find?, List.filter_cons, hp, Bool.false_eq_true,
            if_false]
          exact ih
      | true =>
          simp only [List.find?, List.filter_cons, hp, if_true, List.head?]

end Zipch

open Zipch in
/-- C5: when the data rows contain two or more rows with the same postal
code, the parse still succeeds (no error for the duplication), the built
mapping has exactly one entry for that code, and the stored Location is the
one built from the last such row in file order. -/
theorem C5_duplicate_last_write_wins (hdr : List String)
    (data : List (List String)) (ps : List (Int × Location)) (c : Int)
    (lastp : Int × Location)
    (hps : data.mapM parseRow = Except.ok ps)
    (hdup : 2 ≤ (ps.filter (fun p => p.1 == c)).length)
    (hlast : (ps.filter (fun p => p.1 == c)).getLast? = some lastp) :
    parse (hdr :: data) = Except.ok (buildDict ps) ∧
    (buildDict ps).countP (fun p => p.1 == c) = 1 ∧
    dictGet (buildDict ps) c = some lastp.2 := by
  refine ⟨parse_eq_buildDict hps, ?_, ?_⟩
  · have hf : ps.filter (fun p => p.1 == c) ≠ [] := by
      intro he
      rw [he] at hdup
      simp at hdup
    obtain ⟨q, hq⟩ := List.exists_mem_of_ne_nil _ hf
    have hqs := List.mem_filter.mp hq
    have hany : ps.any (fun p => p.1 == c) = true :=
      List.any_eq_true.mpr ⟨q, hqs.1, hqs.2⟩
    have hmem : c ∈ (buildDict ps).map Prod.fst := by
      unfold buildDict
      rw [mem_keys_foldl]
      exact Or.inl hany
    exact countP_eq_one_of_nodup_keys (buildDict_keys_nodup ps) hmem
  · have hrev : ps.reverse.find? (fun p => p.1 == c) = some lastp := by
      rw [find?_eq_head?_filter, List.filter_reverse, List.head?_reverse]
      exact hlast
    unfold buildDict
    rw [dictGet_foldl, hrev]

open Zipch in
/-- C5 witness: two data rows share postal code 1003; the parse succeeds,
the mapping holds a single 1003 entry, and its value is the Location of the
second (last) row. -/
theorem C5_duplicate_last_write_wins_witness :
    parse [["h"], ["Lausanne", "1003", "0", "Lausanne", "5586", "VD", "1", "2"],
           ["Flon", "1003", "0", "Lausanne", "5586", "VD", "3", "4"]] =
      Except.ok (buildDict [(1003, locLausanne), (1003, locFlon)]) ∧
    (buildDict [(1003, locLausanne), (1003, locFlon)]).countP
        (fun p => p.1 == (1003 : Int)) = 1 ∧
    dictGet (buildDict [(1003, locLausanne), (1003, locFlon)]) 1003 =
      some (1003, locFlon).2 :=
  C5_duplicate_last_write_wins ["h"]
    [["Lausanne", "1003", "0", "Lausanne", "5586", "VD", "1", "2"],
     ["Flon", "1003", "0", "Lausanne", "5586", "VD", "3", "4"]]
    [(1003, locLausanne), (1003, locFlon)] 1003 (1003, locFlon)
    (by decide) (by decide) (by decide)

namespace Zipch

/-! Lemmas for the canton partition claim. -/

theorem mem_zipcodesForCanton {m : PyDict} {c : String} {z : Int} :
    z ∈ zipcodesForCanton m c ↔ ∃ loc, (z, loc) ∈ m ∧ loc.canton = c := by
  unfold zipcodesForCanton
  constructor
  · intro h
    obtain ⟨p, hp, hz⟩ := List.mem_map.mp h
    have hf := List.mem_filter.mp hp
    refine ⟨p.2, ?_, by simpa using hf.2⟩
    have hpe : (z, p.2) = p := by
      rw [← hz]
    rw [hpe]
    exact hf.1
  · rintro ⟨loc, hm, hc⟩
    exact List.mem_map.mpr ⟨(z, loc), List.mem_filter.mpr ⟨hm, by simpa using hc⟩, rfl⟩

theorem mem_cantons {m : PyDict} {c : String} :
    c ∈ cantons m ↔ c ∈ m.map (fun p => p.2.canton) := by
  unfold cantons sortedUnique
  rw [(List.perm_insertionSort _ _).mem_iff]
  exact List.mem_dedup

theorem nodup_keys_value_unique {m : PyDict} (hnd : (m.map Prod.fst).Nodup)
    {z : Int} {l1 l2 : Location} (h1 : (z, l1) ∈ m) (h2 : (z, l2) ∈ m) :
    l1 = l2 := by
  induction m with
  | nil => simp at h1
  | cons p rest ih =>
      rw [List.map_cons, List.nodup_cons] at hnd
      rcases List.mem_cons.mp h1 with e1 | m1
      · rcases List.mem_cons.mp h2 with e2 | m2
        · have he : (z, l1) = (z, l2) := e1.trans e2.symm
          exact congrArg Prod.snd he
        · exact absurd (by
            rw [← e1]
            exact List.mem_map.mpr ⟨(z, l2), m2, rfl⟩) hnd.1
      · rcases List.mem_cons.mp h2 with e2 | m2
        · exact absurd (by
            rw [← e2]
            exact List.mem_map.mpr ⟨(z, l1), m1, rfl⟩) hnd.1
        · exact ih hnd.2 m1 m2

end Zipch

open Zipch in
/-- C8: over any Location Index obtained by `get_locations` (with its
construction-unique keys), `get_zipcodes_for_canton` returns exactly the
keys whose Location has the given canton; the union of these result sets
over the values of `get_cantons` is the full key set, and no key lies in
the result sets of two distinct canton codes. -/
theorem C8_canton_partition (remote : Archive) (st : DbState) (m : PyDict)
    (st1 : DbState) (tr : Trace) (c c1 c2 : String) (z z2 w : Int)
    (h : get_locations remote st = (Except.ok m, st1, tr))
    (hnd : (m.map Prod.fst).Nodup) :
    get_zipcodes_for_canton remote c st =
      (Except.ok (zipcodesForCanton m c), st1, tr) ∧
    get_cantons remote st = (Except.ok (cantons m), st1, tr) ∧
    (z ∈ zipcodesForCanton m c ↔ ∃ loc, (z, loc) ∈ m ∧ loc.canton = c) ∧
    ((∃ loc, (w, loc) ∈ m) ↔
      ∃ cc, cc ∈ cantons m ∧ w ∈ zipcodesForCanton m cc) ∧
    (c1 ≠ c2 → z2 ∈ zipcodesForCanton m c1 → z2 ∉ zipcodesForCanton m c2) := by
  refine ⟨?_, ?_, mem_zipcodesForCanton, ?_, ?_⟩
  · unfold get_zipcodes_for_canton
    rw [h]
  · unfold get_cantons
    rw [h]
  · constructor
    · rintro ⟨loc, hm⟩
      refine ⟨loc.canton, ?_, ?_⟩
      · exact mem_cantons.mpr (List.mem_map.mpr ⟨(w, loc), hm, rfl⟩)
      · exact mem_zipcodesForCanton.mpr ⟨loc, hm, rfl⟩
    · rintro ⟨cc, _, hz⟩
      obtain ⟨loc, hm, _⟩ := mem_zipcodesForCanton.mp hz
      exact ⟨loc, hm⟩
  · intro hne hz1 hz2
    obtain ⟨loc1, hm1, hc1⟩ := mem_zipcodesForCanton.mp hz1
    obtain ⟨loc2, hm2, hc2⟩ := mem_zipcodesForCanton.mp hz2
    apply hne
    rw [← hc1, ← hc2, nodup_keys_value_unique hnd hm1 hm2]

open Zipch in
/-- C8 witness: the cached two-canton index; VD holds 1003, GE holds 1201,
the union over the cantons list recovers both keys, and 1003 is not in the
GE result. -/
theorem C8_canton_partition_witness :
    get_zipcodes_for_canton [] "VD" cachedSt =
      (Except.ok (zipcodesForCanton cachedSt.cache "VD"), cachedSt, ⟨0, 0, 0⟩) ∧
    get_cantons [] cachedSt =
      (Except.ok (cantons cachedSt.cache), cachedSt, ⟨0, 0, 0⟩) ∧
    ((1003 : Int) ∈ zipcodesForCanton cachedSt.cache "VD" ↔
      ∃ loc, ((1003 : Int), loc) ∈ cachedSt.cache ∧ loc.canton = "VD") ∧
    ((∃ loc, ((1201 : Int), loc) ∈ cachedSt.cache) ↔
      ∃ cc, cc ∈ cantons cachedSt.cache ∧
        (1201 : Int) ∈ zipcodesForCanton cachedSt.cache cc) ∧
    ("VD" ≠ "GE" → (1003 : Int) ∈ zipcodesForCanton cachedSt.cache "VD" →
      (1003 : Int) ∉ zipcodesForCanton cachedSt.cache "GE") :=
  C8_canton_partition [] cachedSt cachedSt.cache cachedSt ⟨0, 0, 0⟩
    "VD" "VD" "GE" 1003 1003 1201 (by decide) (by decide)

/-- C9: for every native coordinate pair `(E, N)`, `lv95_to_wgs84` is the
pure function that sets `y = (E - 2600000)/1000000`,
`x = (N - 1200000)/1000000` and returns the two fixed-coefficient cubic
polynomials scaled by `100/36`, in exact arithmetic. -/
theorem C9_lv95_to_wgs84_formula (E N : Rat) :
    Zipch.lv95_to_wgs84 ⟨E, N⟩ =
      ⟨(2.6779094 + 4.728982 * ((E - 2600000) / 1000000)
          + 0.791484 * ((E - 2600000) / 1000000) * ((N - 1200000) / 1000000)
          + 0.1306 * ((E - 2600000) / 1000000) * ((N - 1200000) / 1000000) ^ 2
          - 0.0436 * ((E - 2600000) / 1000000) ^ 3) * 100 / 36,
       (16.9023892 + 3.238272 * ((N - 1200000) / 1000000)
          - 0.270978 * ((E - 2600000) / 1000000) ^ 2
          - 0.002528 * ((N - 1200000) / 1000000) ^ 2
          - 0.0447 * ((E - 2600000) / 1000000) ^ 2 * ((N - 1200000) / 1000000)
          - 0.0140 * ((N - 1200000) / 1000000) ^ 3) * 100 / 36⟩ := rfl
